import Mathlib

/-!
# Verification of the flight-streaming-pipeline core

Shallow embedding of the repository's core pipeline:

* `src/src/generators/models.py` — the `FlightRecord` pydantic schema
  (validation + upper-casing normalization at construction time);
* `src/src/generators/flight_generator.py` — the deterministic seeded
  generator (`FlightDataGenerator`);
* `src/src/streaming/json_stream.py` — the NDJSON codec
  (`record_to_json_line`, `records_to_ndjson`, `stream_to_file`,
  `read_ndjson_file`, `count_lines`).

Modelling conventions:

* Python `str` is modelled as `List Char`; `datetime` as an `Int` counting
  minutes (adding `timedelta(minutes = m)` is `+ m`); file content as the
  `List Char` of its characters.
* `random.Random` is Python standard-library code, not code of this
  repository.  It is modelled as a deterministic pseudo-random stream: an
  explicit state (`RState`) advanced by a fixed mixing function on every
  draw.  Each draw primitive (`randBelow`, `randintI`, `choice`,
  `pickWeighted`) consumes the stream exactly once, mirroring the fact
  that every `rng.*` call in the source advances the one seeded stream
  owned by the generator instance.  `random.choices` with float weights is
  modelled with the same integer weights scaled by 100 (the source weights
  sum to 1.0).
* Fallible construction (`pydantic` validation) returns `Except`.
-/

/-! ## Pseudo-random stream (model of `random.Random`) -/

/-- State of the seeded pseudo-random stream owned by a generator. -/
abbrev RState := Nat

/-- Advance the pseudo-random stream by one draw (64-bit mixing step). -/
def rngNext (s : RState) : RState :=
  (6364136223846793005 * s + 1442695040888963407) % (2 ^ 64)

/-- Draw a value in `[0, n)` (for `n > 0`), advancing the stream. -/
def randBelow (s : RState) (n : Nat) : Nat × RState :=
  let s' := rngNext s
  (s' % n, s')

/-- Model of `rng.randint(a, b)`: uniform integer in `[a, b]`, inclusive. -/
def randintI (s : RState) (a b : Int) : Int × RState :=
  let s' := rngNext s
  (a + ((s' % (b - a + 1).toNat : Nat) : Int), s')

/-- Model of `rng.choice(l)` for a non-empty pool `l`. -/
def choice [Inhabited α] (l : List α) (s : RState) : α × RState :=
  let p := randBelow s l.length
  (l.getD p.1 default, p.2)

/-- Cumulative walk used to model `rng.choices(population, weights)`:
`r` is a uniform draw below the total weight. -/
def pickWeighted (l : List (α × Nat)) (d : α) (r : Nat) : α :=
  match l with
  | [] => d
  | (a, w) :: rest => if r < w then a else pickWeighted rest d (r - w)

/-! ## Record schema (`src/src/generators/models.py`) -/

/-- `FlightStatus` enum, in declaration order. -/
inductive FlightStatus where
  | scheduled
  | boarding
  | departed
  | in_air
  | landed
  | arrived
  | delayed
  | cancelled
  | diverted
deriving DecidableEq, Inhabited

/-- `FlightType` enum, in declaration order. -/
inductive FlightType where
  | arrival
  | departure
deriving DecidableEq, Inhabited

/-- Model of Python `str.upper` on one character (ASCII case mapping;
every string the pipeline manipulates is ASCII). -/
def upperChar (c : Char) : Char :=
  if 'a' ≤ c ∧ c ≤ 'z' then Char.ofNat (c.toNat - 32) else c

/-- Model of Python `str.upper`. -/
def upperStr (s : List Char) : List Char := s.map upperChar

/-- A single flight arrival or departure record, fields in the pydantic
declaration order of `FlightRecord`. -/
structure FlightRecord where
  flight_id : List Char
  flight_type : FlightType
  airline : List Char
  airline_code : List Char
  flight_number : Int
  origin_airport : List Char
  destination_airport : List Char
  scheduled_time : Int
  estimated_time : Option Int
  actual_time : Option Int
  status : FlightStatus
  gate : Option (List Char)
  terminal : Option (List Char)
  aircraft_type : Option (List Char)
  delay_minutes : Int
deriving DecidableEq, Inhabited

/-- Kinds of pydantic `ValidationError` raised at record construction. -/
inductive ValidationError where
  | airline_code_length
  | flight_number_range
  | origin_airport_length
  | destination_airport_length
  | delay_minutes_negative
deriving DecidableEq

/-- Validating constructor of `FlightRecord`: the pydantic field
constraints (`min_length`/`max_length`/`ge`/`le`) followed by the
`field_validator` normalizations that upper-case the airport codes and the
airline code.  Construction fails with a `ValidationError` whenever a
constraint is violated, so no partially-valid record value is ever
produced. -/
def mkFlightRecord (flight_id : List Char) (flight_type : FlightType)
    (airline : List Char) (airline_code : List Char) (flight_number : Int)
    (origin_airport : List Char) (destination_airport : List Char)
    (scheduled_time : Int) (estimated_time : Option Int)
    (actual_time : Option Int) (status : FlightStatus)
    (gate : Option (List Char)) (terminal : Option (List Char))
    (aircraft_type : Option (List Char)) (delay_minutes : Int) :
    Except ValidationError FlightRecord :=
  if 2 ≤ airline_code.length ∧ airline_code.length ≤ 3 then
    if 1 ≤ flight_number ∧ flight_number ≤ 9999 then
      if 3 ≤ origin_airport.length ∧ origin_airport.length ≤ 4 then
        if 3 ≤ destination_airport.length ∧ destination_airport.length ≤ 4 then
          if 0 ≤ delay_minutes then
            .ok { flight_id := flight_id
                  flight_type := flight_type
                  airline := airline
                  airline_code := upperStr airline_code
                  flight_number := flight_number
                  origin_airport := upperStr origin_airport
                  destination_airport := upperStr destination_airport
                  scheduled_time := scheduled_time
                  estimated_time := estimated_time
                  actual_time := actual_time
                  status := status
                  gate := gate
                  terminal := terminal
                  aircraft_type := aircraft_type
                  delay_minutes := delay_minutes }
          else .error .delay_minutes_negative
        else .error .destination_airport_length
      else .error .origin_airport_length
    else .error .flight_number_range
  else .error .airline_code_length

/-! ## Decimal rendering (model of Python integer string formatting) -/

/-- The decimal digit characters. -/
def digitChars : List Char := ['0', '1', '2', '3', '4', '5', '6', '7', '8', '9']

/-- Is `c` a decimal digit? -/
def isDigitCh (c : Char) : Bool := decide (c ∈ digitChars)

/-- The character of a decimal digit. -/
def digitChar (d : Nat) : Char :=
  if d = 0 then '0' else if d = 1 then '1' else if d = 2 then '2'
  else if d = 3 then '3' else if d = 4 then '4' else if d = 5 then '5'
  else if d = 6 then '6' else if d = 7 then '7' else if d = 8 then '8'
  else if d = 9 then '9' else '0'

/-- Numeric value of a digit character. -/
def digitVal (c : Char) : Nat :=
  if c = '0' then 0 else if c = '1' then 1 else if c = '2' then 2
  else if c = '3' then 3 else if c = '4' then 4 else if c = '5' then 5
  else if c = '6' then 6 else if c = '7' then 7 else if c = '8' then 8
  else if c = '9' then 9 else 10

/-- Fuelled accumulator loop printing `n` in decimal before `acc`
(`fuel > n` always suffices). -/
def natToStrAux : Nat → Nat → List Char → List Char
  | 0, _, acc => acc
  | fuel + 1, n, acc =>
    if n < 10 then digitChar n :: acc
    else natToStrAux fuel (n / 10) (digitChar (n % 10) :: acc)

/-- Decimal rendering of a natural number. -/
def natToStr (n : Nat) : List Char := natToStrAux (n + 1) n []

/-- Decimal rendering of an integer (model of Python `str(i)` /
f-string interpolation of an `int`). -/
def intToStr (i : Int) : List Char :=
  if i < 0 then '-' :: natToStr i.natAbs else natToStr i.toNat

/-! ## Reference data pools (`flight_generator.py`) -/

/-- The fixed pool of 15 `(name, code)` airline pairs. -/
def AIRLINES : List (List Char × List Char) :=
  [ ("United Airlines".data, "UA".data),
    ("Delta Air Lines".data, "DL".data),
    ("American Airlines".data, "AA".data),
    ("Southwest Airlines".data, "WN".data),
    ("JetBlue Airways".data, "B6".data),
    ("Alaska Airlines".data, "AS".data),
    ("Spirit Airlines".data, "NK".data),
    ("Frontier Airlines".data, "F9".data),
    ("British Airways".data, "BA".data),
    ("Lufthansa".data, "LH".data),
    ("Air France".data, "AF".data),
    ("KLM Royal Dutch".data, "KL".data),
    ("Emirates".data, "EK".data),
    ("Qatar Airways".data, "QR".data),
    ("Singapore Airlines".data, "SQ".data) ]

/-- The fixed pool of 20 airport codes. -/
def AIRPORTS : List (List Char) :=
  [ "JFK".data, "LAX".data, "ORD".data, "ATL".data, "DFW".data,
    "DEN".data, "SFO".data, "SEA".data, "MIA".data, "BOS".data,
    "LHR".data, "CDG".data, "FRA".data, "AMS".data, "DXB".data,
    "SIN".data, "HND".data, "ICN".data, "SYD".data, "YYZ".data ]

/-- The fixed pool of 12 aircraft type designators. -/
def AIRCRAFT_TYPES : List (List Char) :=
  [ "B738".data, "B739".data, "B77W".data, "B789".data, "A320".data,
    "A321".data, "A333".data, "A359".data, "A388".data, "E190".data,
    "CRJ9".data, "B737".data ]

/-- The fixed pool of 5 terminals. -/
def TERMINALS : List (List Char) :=
  [ "T1".data, "T2".data, "T3".data, "T4".data, "T5".data ]

/-- `STATUS_WEIGHTS`, in the insertion order of the source dict, scaled by
100 from the float weights (which sum to 1.0). -/
def statusWeights : List (FlightStatus × Nat) :=
  [ (.scheduled, 25), (.boarding, 10), (.departed, 10), (.in_air, 15),
    (.landed, 10), (.arrived, 15), (.delayed, 10), (.cancelled, 3),
    (.diverted, 2) ]

/-! ## Deterministic generator (`FlightDataGenerator`) -/

/-- The `delay_minutes` derivation of `_make_record` (lines 130-136 of
`flight_generator.py`): a draw happens only in the taken branch. -/
def delayDraw (status : FlightStatus) (s : RState) : Int × RState :=
  if status = FlightStatus.delayed then randintI s 15 300
  else if status = FlightStatus.cancelled then ((0 : Int), s)
  else if status = FlightStatus.arrived ∨ status = FlightStatus.landed then
    choice [(0 : Int), 0, 0, 5, 10, 15, 30] s
  else ((0 : Int), s)

/-- One step of `FlightDataGenerator._make_record` (lines 112-162 of
`flight_generator.py`): every choice is drawn from the single seeded
stream in the fixed source order, and the record is built through the
validating `FlightRecord` constructor. -/
def _make_record (bt : Int) (s0 : RState) :
    Except ValidationError FlightRecord × RState :=
  let p1 := choice AIRLINES s0
  let airline := p1.1.1
  let airline_code := p1.1.2
  let s1 := p1.2
  let p2 := randintI s1 100 9999
  let flight_number := p2.1
  let s2 := p2.2
  let flight_id := airline_code ++ '-' :: intToStr flight_number
  let p3 := randBelow s2 AIRPORTS.length
  let i := p3.1
  let s3 := p3.2
  let origin := AIRPORTS.getD i []
  let remaining := AIRPORTS.eraseIdx i
  let p4 := randBelow s3 remaining.length
  let j := p4.1
  let s4 := p4.2
  let destination := remaining.getD j []
  let p5 := choice [FlightType.arrival, FlightType.departure] s4
  let flight_type := p5.1
  let s5 := p5.2
  let p6 := randintI s5 (-720) 720
  let offset := p6.1
  let s6 := p6.2
  let scheduled := bt + offset
  let p7 := randBelow s6 100
  let status := pickWeighted statusWeights FlightStatus.scheduled p7.1
  let s7 := p7.2
  let p8 := delayDraw status s7
  let delay_minutes := p8.1
  let s8 := p8.2
  let estimated :=
    if delay_minutes ≠ 0 then some (scheduled + delay_minutes) else none
  let actual :=
    if status = FlightStatus.arrived ∨ status = FlightStatus.landed ∨
        status = FlightStatus.departed then
      some (estimated.getD scheduled)
    else none
  let p9 := choice ['A', 'B', 'C', 'D', 'E', 'F'] s8
  let gate_letter := p9.1
  let s9 := p9.2
  let p10 := randintI s9 1 40
  let gate_number := p10.1
  let s10 := p10.2
  let gate := gate_letter :: intToStr gate_number
  let p11 := choice TERMINALS s10
  let terminal := p11.1
  let s11 := p11.2
  let p12 := choice AIRCRAFT_TYPES s11
  let aircraft_type := p12.1
  let s12 := p12.2
  (mkFlightRecord flight_id flight_type airline airline_code flight_number
     origin destination scheduled estimated actual status (some gate)
     (some terminal) (some aircraft_type) delay_minutes, s12)

/-- One iteration of the `stream(n)` loop, continued: given the outcome
`p` of `_make_record` at the current state, cons the record onto the
records produced by `rest` from the advanced state (a pydantic failure
would abort the iteration, so the result is `Except`). -/
def streamCont (p : Except ValidationError FlightRecord × RState)
    (rest : RState → Except ValidationError (List FlightRecord) × RState) :
    Except ValidationError (List FlightRecord) × RState :=
  match p with
  | (.ok r, s') =>
    match rest s' with
    | (.ok rs, s'') => (.ok (r :: rs), s'')
    | (.error e, s'') => (.error e, s'')
  | (.error e, s') => (.error e, s')

/-- `stream(n)` unrolled over the explicit stream state: yields the `n`
records produced by successive `_make_record` calls. -/
def streamFrom (bt : Int) : Nat → RState → Except ValidationError (List FlightRecord) × RState
  | 0, s => (.ok [], s)
  | n + 1, s => streamCont (_make_record bt s) (streamFrom bt n)

/-- A `FlightDataGenerator` instance: the seed it was constructed with,
the current state of its owned pseudo-random stream, and the anchor
`base_time` (minutes). -/
structure FlightDataGenerator where
  seed : Nat
  rng : RState
  base_time : Int
deriving DecidableEq

/-- `FlightDataGenerator.__init__(seed, base_time)`: seeds the owned
stream from `seed` alone (no other entropy source). -/
def FlightDataGenerator.new (seed : Nat) (base_time : Int) : FlightDataGenerator :=
  { seed := seed, rng := seed, base_time := base_time }

/-- `stream(n)`: yields `n` records, advancing the instance's owned
stream (the returned generator carries the advanced stream state). -/
def FlightDataGenerator.stream (g : FlightDataGenerator) (n : Nat) :
    Except ValidationError (List FlightRecord) × FlightDataGenerator :=
  let p := streamFrom g.base_time n g.rng
  (p.1, { g with rng := p.2 })

/-- `generate(n) = list(stream(n))`: the materialized record list. -/
def FlightDataGenerator.generate (g : FlightDataGenerator) (n : Nat) :
    Except ValidationError (List FlightRecord) × FlightDataGenerator :=
  g.stream n

/-! ## JSON values and text (`src/src/streaming/json_stream.py`)

`pydantic.BaseModel.model_dump_json` and `json.loads` are external library
code; they are embedded concretely as a compact JSON printer and parser
over `List Char`, restricted to the value shapes a dumped `FlightRecord`
contains (strings, integers, `null`).  ISO-8601 rendering of a `datetime`
is abstracted as the decimal rendering of its minute timestamp (an
injective textual encoding, as ISO-8601 is). -/

/-- A JSON value as it appears in a dumped flight record. -/
inductive JValue where
  | str : List Char → JValue
  | int : Int → JValue
  | null : JValue
deriving DecidableEq

/-- A flat JSON object: ordered key/value pairs. -/
abbrev JObj := List (List Char × JValue)

/-- JSON string escaping of one character (`"` `\` and the whitespace
controls; other characters pass through unchanged). -/
def escapeChar (c : Char) : List Char :=
  if c = '"' then ['\\', '"']
  else if c = '\\' then ['\\', '\\']
  else if c = '\n' then ['\\', 'n']
  else if c = '\t' then ['\\', 't']
  else if c = '\r' then ['\\', 'r']
  else [c]

/-- JSON string escaping. -/
def escapeString : List Char → List Char
  | [] => []
  | c :: cs => escapeChar c ++ escapeString cs

/-- Print one JSON value (compact form). -/
def printJValue : JValue → List Char
  | .str s => '"' :: (escapeString s ++ ['"'])
  | .int i => intToStr i
  | .null => ['n', 'u', 'l', 'l']

/-- Print one `"key":value` member. -/
def printMember (m : List Char × JValue) : List Char :=
  '"' :: (escapeString m.1 ++ '"' :: ':' :: printJValue m.2)

/-- Print the members of an object, comma-separated. -/
def printMembers : JObj → List Char
  | [] => []
  | [m] => printMember m
  | m :: ms => printMember m ++ ',' :: printMembers ms

/-- Print a JSON object in the compact separators-free form that
`model_dump_json` emits. -/
def printJObj (ms : JObj) : List Char := '{' :: (printMembers ms ++ ['}'])

/-- Inverse of `escapeChar` on the character after a backslash. -/
def unescapeChar (c : Char) : Option Char :=
  if c = '"' then some '"'
  else if c = '\\' then some '\\'
  else if c = 'n' then some '\n'
  else if c = 't' then some '\t'
  else if c = 'r' then some '\r'
  else if c = '/' then some '/'
  else none

/-- Parse a JSON string body (the opening quote already consumed),
returning the decoded content and the input after the closing quote. -/
def parseStringBody : List Char → Option (List Char × List Char)
  | [] => none
  | c :: rest =>
    if c = '"' then some ([], rest)
    else if c = '\\' then
      match rest with
      | [] => none
      | e :: rest2 =>
        match unescapeChar e, parseStringBody rest2 with
        | some u, some (s, r) => some (u :: s, r)
        | _, _ => none
    else
      match parseStringBody rest with
      | some (s, r) => some (c :: s, r)
      | none => none

/-- Consume a maximal run of decimal digits, folding them onto `acc`. -/
def parseDigits : List Char → Nat → Nat × List Char
  | [], acc => (acc, [])
  | c :: rest, acc =>
    if isDigitCh c then parseDigits rest (acc * 10 + digitVal c)
    else (acc, c :: rest)

/-- Does the input start with a decimal digit? -/
def startsDigit : List Char → Bool
  | [] => false
  | c :: _ => isDigitCh c

/-- Parse one JSON value (string, integer or `null`). -/
def parseJValue (l : List Char) : Option (JValue × List Char) :=
  match l with
  | [] => none
  | c :: rest =>
    if c = '"' then
      match parseStringBody rest with
      | some (s, r) => some (.str s, r)
      | none => none
    else if c = 'n' then
      match rest with
      | 'u' :: 'l' :: 'l' :: r => some (.null, r)
      | _ => none
    else if c = '-' then
      if startsDigit rest then
        let p := parseDigits rest 0
        some (.int (-((p.1 : Nat) : Int)), p.2)
      else none
    else if isDigitCh c then
      let p := parseDigits (c :: rest) 0
      some (.int ((p.1 : Nat) : Int), p.2)
    else none

/-- Parse the members of a non-empty JSON object (the opening brace
already consumed), up to and including the closing brace.  `fuel` bounds
the member count; any `fuel ≥` the remaining input length suffices. -/
def parseMembers : Nat → List Char → Option (JObj × List Char)
  | 0, _ => none
  | fuel + 1, l =>
    match l with
    | [] => none
    | c :: rest =>
      if c = '"' then
        match parseStringBody rest with
        | some (k, r1) =>
          match r1 with
          | [] => none
          | c1 :: r2 =>
            if c1 = ':' then
              match parseJValue r2 with
              | some (v, r3) =>
                match r3 with
                | [] => none
                | c2 :: r4 =>
                  if c2 = ',' then
                    match parseMembers fuel r4 with
                    | some (ms, r5) => some ((k, v) :: ms, r5)
                    | none => none
                  else if c2 = '}' then some ([(k, v)], r4)
                  else none
              | none => none
            else none
        | none => none
      else none

/-- Parse a JSON object from the head of the input. -/
def parseJObjAux (fuel : Nat) (l : List Char) : Option (JObj × List Char) :=
  match l with
  | [] => none
  | c :: rest =>
    if c = '{' then
      match rest with
      | [] => none
      | c1 :: _ =>
        if c1 = '}' then some ([], rest.tail) else parseMembers fuel rest
    else none

/-- Python whitespace characters stripped by `str.strip` (ASCII). -/
def isSpaceCh (c : Char) : Bool :=
  c = ' ' || c = '\t' || c = '\n' || c = '\r' || c = '\x0b' || c = '\x0c'

/-- Model of Python `str.strip()`. -/
def stripChars (l : List Char) : List Char :=
  ((l.dropWhile isSpaceCh).reverse.dropWhile isSpaceCh).reverse

/-- Model of `json.loads` on one line: parse a full object, requiring
only trailing whitespace after it. -/
def json_loads (l : List Char) : Option JObj :=
  match parseJObjAux l.length l with
  | some (o, rest) => if (stripChars rest).isEmpty then some o else none
  | none => none

/-! ## Dumping a record -/

/-- Textual value of a `FlightStatus` (the enum's string value). -/
def statusStr : FlightStatus → List Char
  | .scheduled => "scheduled".data
  | .boarding => "boarding".data
  | .departed => "departed".data
  | .in_air => "in_air".data
  | .landed => "landed".data
  | .arrived => "arrived".data
  | .delayed => "delayed".data
  | .cancelled => "cancelled".data
  | .diverted => "diverted".data

/-- Textual value of a `FlightType` (the enum's string value). -/
def flightTypeStr : FlightType → List Char
  | .arrival => "arrival".data
  | .departure => "departure".data

/-- ISO-8601 rendering of a modelled datetime (minute timestamp). -/
def isoMinutes (t : Int) : List Char := intToStr t

/-- An optional datetime field: `null` when absent. -/
def optTime : Option Int → JValue
  | some t => .str (isoMinutes t)
  | none => .null

/-- An optional string field: `null` when absent. -/
def optStr : Option (List Char) → JValue
  | some s => .str s
  | none => .null

/-- The JSON object `model_dump_json` produces for a record, fields in
pydantic declaration order. -/
def dumpRecord (r : FlightRecord) : JObj :=
  [ ("flight_id".data, .str r.flight_id),
    ("flight_type".data, .str (flightTypeStr r.flight_type)),
    ("airline".data, .str r.airline),
    ("airline_code".data, .str r.airline_code),
    ("flight_number".data, .int r.flight_number),
    ("origin_airport".data, .str r.origin_airport),
    ("destination_airport".data, .str r.destination_airport),
    ("scheduled_time".data, .str (isoMinutes r.scheduled_time)),
    ("estimated_time".data, optTime r.estimated_time),
    ("actual_time".data, optTime r.actual_time),
    ("status".data, .str (statusStr r.status)),
    ("gate".data, optStr r.gate),
    ("terminal".data, optStr r.terminal),
    ("aircraft_type".data, optStr r.aircraft_type),
    ("delay_minutes".data, .int r.delay_minutes) ]

/-! ## NDJSON codec operations -/

/-- `record_to_json_line(record)`: one JSON object, no trailing newline. -/
def record_to_json_line (r : FlightRecord) : List Char :=
  printJObj (dumpRecord r)

/-- `records_to_ndjson(records)`: per-record lines joined by `"\n"`, plus
a trailing newline when the input is non-empty; `""` when it is empty. -/
def records_to_ndjson (records : List FlightRecord) : List Char :=
  let lines := records.map record_to_json_line
  if lines = [] then [] else List.intercalate ['\n'] lines ++ ['\n']

/-- `stream_to_file(records, path)`: the file content written (one line
plus newline per record) and the returned count. -/
def stream_to_file : List FlightRecord → List Char × Nat
  | [] => ([], 0)
  | r :: rs =>
    let rest := stream_to_file rs
    (record_to_json_line r ++ '\n' :: rest.1, rest.2 + 1)

/-- Split file content at newline characters (the pieces Python's line
iteration yields, newlines removed; a trailing empty piece corresponds to
a file ending in a newline). -/
def splitNl : List Char → List (List Char)
  | [] => [[]]
  | c :: rest =>
    if c = '\n' then [] :: splitNl rest
    else
      match splitNl rest with
      | l :: ls => (c :: l) :: ls
      | [] => [[c]]

/-- `count_lines(path)`: the number of lines that are non-empty after
stripping. -/
def count_lines (content : List Char) : Nat :=
  ((splitNl content).map stripChars).countP (fun l => !l.isEmpty)

/-- The parse error raised by `json.loads` on a malformed line. -/
inductive ParseError where
  | malformed
deriving DecidableEq

/-- Parse each stripped non-empty line in order, failing on the first
malformed one. -/
def parseLines : List (List Char) → Except ParseError (List JObj)
  | [] => .ok []
  | l :: ls =>
    match json_loads l with
    | some o =>
      match parseLines ls with
      | .ok os => .ok (o :: os)
      | .error e => .error e
    | none => .error .malformed

/-- `read_ndjson_file(path)`: strip each line, skip empties, `json.loads`
the rest in order. -/
def read_ndjson_file (content : List Char) : Except ParseError (List JObj) :=
  parseLines (((splitNl content).map stripChars).filter (fun l => !l.isEmpty))

/-- Concrete run used by the witnesses: the single record generated at
seed 42 and base time 0. -/
def sampleRecords : List FlightRecord :=
  ((FlightDataGenerator.new 42 0).generate 1).1.toOption.getD []

/-- Concrete validated construction used by the witnesses. -/
def sampleValidated : Except ValidationError FlightRecord :=
  mkFlightRecord "UA-100".data FlightType.arrival "United Airlines".data
    "UA".data 100 "JFK".data "LAX".data 0 none none FlightStatus.scheduled
    none none none 0

/-- The invariants every record built by `_make_record` satisfies
(routing distinctness, normalization, ranges, and the status-dependent
rules for `delay_minutes`, `estimated_time` and `actual_time`). -/
def RecordProps (r : FlightRecord) : Prop :=
  r.origin_airport ≠ r.destination_airport ∧
  upperStr r.airline_code = r.airline_code ∧
  upperStr r.origin_airport = r.origin_airport ∧
  upperStr r.destination_airport = r.destination_airport ∧
  1 ≤ r.flight_number ∧ r.flight_number ≤ 9999 ∧
  0 ≤ r.delay_minutes ∧
  (r.status = .cancelled → r.delay_minutes = 0) ∧
  (r.status = .delayed → 0 < r.delay_minutes) ∧
  (r.estimated_time.isSome ↔ 0 < r.delay_minutes) ∧
  (r.actual_time.isSome ↔
    (r.status = .arrived ∨ r.status = .landed ∨ r.status = .departed)) ∧
  (r.status = .departed →
    r.delay_minutes = 0 ∧ r.estimated_time = none ∧
    r.actual_time = some r.scheduled_time)

/-! ## Basic facts about the draw primitives and the pools -/

theorem randBelow_lt (s : RState) (n : Nat) (h : 0 < n) : (randBelow s n).1 < n := by
  simpa [randBelow] using Nat.mod_lt _ h

theorem randintI_le (s : RState) (a b : Int) (h : a ≤ b) :
    a ≤ (randintI s a b).1 ∧ (randintI s a b).1 ≤ b := by
  simp only [randintI]
  have h1 : rngNext s % (b - a + 1).toNat < (b - a + 1).toNat := Nat.mod_lt _ (by omega)
  have hlt : ((rngNext s % (b - a + 1).toNat : Nat) : Int) < b - a + 1 := by
    calc ((rngNext s % (b - a + 1).toNat : Nat) : Int)
        < ((b - a + 1).toNat : Int) := by exact_mod_cast h1
      _ = b - a + 1 := Int.toNat_of_nonneg (by omega)
  have hge : (0 : Int) ≤ ((rngNext s % (b - a + 1).toNat : Nat) : Int) := Int.natCast_nonneg _
  constructor <;> linarith

theorem getD_mem {α : Type _} (l : List α) (i : Nat) (d : α) (h : i < l.length) :
    l.getD i d ∈ l := by
  induction l generalizing i with
  | nil => simp at h
  | cons x xs ih =>
    cases i with
    | zero => simp [List.getD]
    | succ j =>
      simp only [List.length_cons] at h
      exact List.mem_cons_of_mem _ (ih j (by omega))

theorem choice_mem {α : Type _} [Inhabited α] (l : List α) (s : RState) (h : l ≠ []) :
    (choice l s).1 ∈ l := by
  have hlen : 0 < l.length := List.length_pos.mpr h
  exact getD_mem _ _ _ (by simpa [choice] using randBelow_lt s l.length hlen)

theorem mem_of_mem_eraseIdx {α : Type _} {a : α} :
    ∀ {l : List α} {i : Nat}, a ∈ l.eraseIdx i → a ∈ l := by
  intro l
  induction l with
  | nil => intro i h; simp [List.eraseIdx] at h
  | cons x xs ih =>
    intro i h
    cases i with
    | zero => exact List.mem_cons_of_mem _ (by simpa [List.eraseIdx] using h)
    | succ j =>
      simp only [List.eraseIdx, List.mem_cons] at h
      rcases h with h | h
      · exact h ▸ List.mem_cons_self _ _
      · exact List.mem_cons_of_mem _ (ih h)

theorem eraseIdx_length {α : Type _} :
    ∀ (l : List α) (i : Nat), i < l.length → (l.eraseIdx i).length = l.length - 1 := by
  intro l
  induction l with
  | nil => intro i h; simp at h
  | cons x xs ih =>
    intro i h
    cases i with
    | zero => simp [List.eraseIdx]
    | succ j =>
      simp only [List.length_cons] at h
      simp only [List.eraseIdx, List.length_cons, ih j (by omega)]
      omega

theorem airlines_pool_fact : ∀ p ∈ AIRLINES, p.2.length = 2 ∧ upperStr p.2 = p.2 := by decide

theorem airports_pool_fact : ∀ a ∈ AIRPORTS, a.length = 3 ∧ upperStr a = a := by decide

theorem airports_length : AIRPORTS.length = 20 := by decide

theorem airports_sample_distinct :
    ∀ i < 20, ∀ j < 19, AIRPORTS.getD i [] ≠ (AIRPORTS.eraseIdx i).getD j [] := by decide

theorem delay_pool_fact : ∀ d ∈ [(0 : Int), 0, 0, 5, 10, 15, 30], 0 ≤ d := by decide

/-! ## Validation characterization -/

theorem upperStr_length (s : List Char) : (upperStr s).length = s.length := by
  simp [upperStr]

theorem mkFlightRecord_ok_of_checks (flight_id : List Char) (flight_type : FlightType)
    (airline : List Char) (airline_code : List Char) (flight_number : Int)
    (origin_airport : List Char) (destination_airport : List Char)
    (scheduled_time : Int) (estimated_time : Option Int)
    (actual_time : Option Int) (status : FlightStatus)
    (gate : Option (List Char)) (terminal : Option (List Char))
    (aircraft_type : Option (List Char)) (delay_minutes : Int)
    (h1 : 2 ≤ airline_code.length ∧ airline_code.length ≤ 3)
    (h2 : 1 ≤ flight_number ∧ flight_number ≤ 9999)
    (h3 : 3 ≤ origin_airport.length ∧ origin_airport.length ≤ 4)
    (h4 : 3 ≤ destination_airport.length ∧ destination_airport.length ≤ 4)
    (h5 : 0 ≤ delay_minutes) :
    mkFlightRecord flight_id flight_type airline airline_code flight_number
      origin_airport destination_airport scheduled_time estimated_time
      actual_time status gate terminal aircraft_type delay_minutes =
    .ok { flight_id := flight_id
          flight_type := flight_type
          airline := airline
          airline_code := upperStr airline_code
          flight_number := flight_number
          origin_airport := upperStr origin_airport
          destination_airport := upperStr destination_airport
          scheduled_time := scheduled_time
          estimated_time := estimated_time
          actual_time := actual_time
          status := status
          gate := gate
          terminal := terminal
          aircraft_type := aircraft_type
          delay_minutes := delay_minutes } := by
  simp only [mkFlightRecord, if_pos h1, if_pos h2, if_pos h3, if_pos h4, if_pos h5]

theorem delayDraw_spec (st : FlightStatus) (s : RState) :
    0 ≤ (delayDraw st s).1 ∧
    (st = .cancelled → (delayDraw st s).1 = 0) ∧
    (st = .delayed → 15 ≤ (delayDraw st s).1) ∧
    (st ≠ .delayed → st ≠ .arrived → st ≠ .landed → (delayDraw st s).1 = 0) := by
  unfold delayDraw
  split_ifs with hd hc hal
  · have hb := randintI_le s 15 300 (by norm_num)
    refine ⟨by linarith [hb.1], fun h => ?_, fun _ => hb.1, fun hne _ _ => absurd hd hne⟩
    · rw [hd] at h; cases h
  · exact ⟨le_refl 0, fun _ => rfl, fun h => absurd h hd, fun _ _ _ => rfl⟩
  · have hm := choice_mem [(0 : Int), 0, 0, 5, 10, 15, 30] s (by simp)
    have hge := delay_pool_fact _ hm
    refine ⟨hge, fun h => ?_, fun h => absurd h hd, fun _ ha hl => ?_⟩
    · rcases hal with h' | h' <;> rw [h] at h' <;> cases h'
    · rcases hal with h' | h' <;> [exact absurd h' ha; exact absurd h' hl]
  · exact ⟨le_refl 0, fun _ => rfl, fun h => absurd h hd, fun _ _ _ => rfl⟩

/-! ## Per-record and per-stream characterization -/

theorem make_record_spec (bt : Int) (s0 : RState) :
    ∃ r s', _make_record bt s0 = (.ok r, s') ∧ RecordProps r := by
  simp only [_make_record]
  generalize hA : choice AIRLINES s0 = pA
  obtain ⟨⟨aname, acode⟩, s1⟩ := pA
  have hAm : (aname, acode) ∈ AIRLINES := by
    have := choice_mem AIRLINES s0 (by decide)
    rw [hA] at this
    exact this
  have hAc1 : acode.length = 2 := (airlines_pool_fact _ hAm).1
  have hAc2 : upperStr acode = acode := (airlines_pool_fact _ hAm).2
  generalize hB : randintI s1 100 9999 = pB
  obtain ⟨fn, s2⟩ := pB
  have hBb : 100 ≤ fn ∧ fn ≤ 9999 := by
    have := randintI_le s1 100 9999 (by norm_num)
    rwa [hB] at this
  generalize hI : randBelow s2 AIRPORTS.length = pI
  obtain ⟨i, s3⟩ := pI
  have hIb : i < 20 := by
    have := randBelow_lt s2 AIRPORTS.length (by decide)
    rw [hI] at this
    simpa [airports_length] using this
  have hOm : AIRPORTS.getD i [] ∈ AIRPORTS :=
    getD_mem _ _ _ (by rw [airports_length]; omega)
  have hOc1 : (AIRPORTS.getD i []).length = 3 := (airports_pool_fact _ hOm).1
  have hOc2 : upperStr (AIRPORTS.getD i []) = AIRPORTS.getD i [] :=
    (airports_pool_fact _ hOm).2
  generalize hJ : randBelow s3 (AIRPORTS.eraseIdx i).length = pJ
  obtain ⟨j, s4⟩ := pJ
  have hremlen : (AIRPORTS.eraseIdx i).length = 19 := by
    rw [eraseIdx_length AIRPORTS i (by rw [airports_length]; omega), airports_length]
  have hJb : j < 19 := by
    have := randBelow_lt s3 (AIRPORTS.eraseIdx i).length (by rw [hremlen]; omega)
    rw [hJ] at this
    simpa [hremlen] using this
  have hDm : (AIRPORTS.eraseIdx i).getD j [] ∈ AIRPORTS :=
    mem_of_mem_eraseIdx (getD_mem _ _ _ (by rw [hremlen]; omega))
  have hDc1 : ((AIRPORTS.eraseIdx i).getD j []).length = 3 := (airports_pool_fact _ hDm).1
  have hDc2 : upperStr ((AIRPORTS.eraseIdx i).getD j []) = (AIRPORTS.eraseIdx i).getD j [] :=
    (airports_pool_fact _ hDm).2
  have hOD : AIRPORTS.getD i [] ≠ (AIRPORTS.eraseIdx i).getD j [] :=
    airports_sample_distinct i hIb j hJb
  generalize hT : choice [FlightType.arrival, FlightType.departure] s4 = pT
  obtain ⟨ft, s5⟩ := pT
  generalize hO : randintI s5 (-720) 720 = pO
  obtain ⟨off, s6⟩ := pO
  generalize hW : randBelow s6 100 = pW
  obtain ⟨w, s7⟩ := pW
  generalize hS : pickWeighted statusWeights FlightStatus.scheduled w = st
  generalize hD : delayDraw st s7 = pD
  obtain ⟨delay, s8⟩ := pD
  have hDel : 0 ≤ delay ∧ (st = .cancelled → delay = 0) ∧ (st = .delayed → 15 ≤ delay) ∧
      (st ≠ .delayed → st ≠ .arrived → st ≠ .landed → delay = 0) := by
    have := delayDraw_spec st s7
    rwa [hD] at this
  generalize hG : choice ['A', 'B', 'C', 'D', 'E', 'F'] s8 = pG
  obtain ⟨gl, s9⟩ := pG
  generalize hGn : randintI s9 1 40 = pGn
  obtain ⟨gn, s10⟩ := pGn
  generalize hTe : choice TERMINALS s10 = pTe
  obtain ⟨term, s11⟩ := pTe
  generalize hAt : choice AIRCRAFT_TYPES s11 = pAt
  obtain ⟨atype, s12⟩ := pAt
  rw [mkFlightRecord_ok_of_checks _ _ _ _ _ _ _ _ _ _ _ _ _ _ _
    (show 2 ≤ acode.length ∧ acode.length ≤ 3 by omega)
    (show 1 ≤ fn ∧ fn ≤ 9999 by omega)
    (show 3 ≤ (AIRPORTS.getD i []).length ∧ (AIRPORTS.getD i []).length ≤ 4 by omega)
    (show 3 ≤ ((AIRPORTS.eraseIdx i).getD j []).length ∧
      ((AIRPORTS.eraseIdx i).getD j []).length ≤ 4 by omega)
    hDel.1]
  refine ⟨_, _, rfl, ?_⟩
  unfold RecordProps
  dsimp only
  refine ⟨?_, ?_, ?_, ?_, by omega, by omega, hDel.1, hDel.2.1, ?_, ?_, ?_, ?_⟩
  · rw [hOc2, hDc2]; exact hOD
  · rw [hAc2, hAc2]
  · rw [hOc2, hOc2]
  · rw [hDc2, hDc2]
  · intro h
    have := hDel.2.2.1 h
    omega
  · by_cases hz : delay = 0
    · simp [hz]
    · simp [hz]
      omega
  · by_cases hcond : st = FlightStatus.arrived ∨ st = FlightStatus.landed ∨
      st = FlightStatus.departed <;> simp [hcond]
  · intro hdep
    have hz : delay = 0 :=
      hDel.2.2.2 (by rw [hdep]; decide) (by rw [hdep]; decide) (by rw [hdep]; decide)
    refine ⟨hz, by simp [hz], by simp [hdep, hz]⟩

theorem streamFrom_zero (bt : Int) (s : RState) : streamFrom bt 0 s = (.ok [], s) := rfl

theorem streamFrom_succ (bt : Int) (n : Nat) (s : RState) :
    streamFrom bt (n + 1) s = streamCont (_make_record bt s) (streamFrom bt n) := rfl

theorem streamCont_ok (r : FlightRecord) (s' s'' : RState)
    (rs : List FlightRecord)
    (rest : RState → Except ValidationError (List FlightRecord) × RState)
    (h2 : rest s' = (.ok rs, s'')) :
    streamCont (.ok r, s') rest = (.ok (r :: rs), s'') := by
  show (match rest s' with
    | (.ok rs, s'') => ((.ok (r :: rs), s'') :
        Except ValidationError (List FlightRecord) × RState)
    | (.error e, s'') => (.error e, s'')) = (.ok (r :: rs), s'')
  rw [h2]

theorem streamFrom_spec (bt : Int) :
    ∀ (n : Nat) (s : RState), ∃ rs s', streamFrom bt n s = (.ok rs, s') ∧
      rs.length = n ∧ ∀ r ∈ rs, RecordProps r := by
  intro n
  induction n with
  | zero => exact fun s => ⟨[], s, rfl, rfl, by simp⟩
  | succ n ih =>
    intro s
    obtain ⟨r, s', heq, hp⟩ := make_record_spec bt s
    obtain ⟨rs, s'', heq2, hlen, hall⟩ := ih s'
    refine ⟨r :: rs, s'', ?_, by simp [hlen], ?_⟩
    · rw [streamFrom_succ, heq]
      exact streamCont_ok r s' s'' rs _ heq2
    · intro x hx
      rcases List.mem_cons.mp hx with h | h
      · exact h ▸ hp
      · exact hall x h

theorem generate_ok (g : FlightDataGenerator) (n : Nat) :
    ∃ rs, (g.generate n).1 = .ok rs ∧ rs.length = n ∧ ∀ r ∈ rs, RecordProps r := by
  obtain ⟨rs, s', heq, hlen, hall⟩ := streamFrom_spec g.base_time n g.rng
  refine ⟨rs, ?_, hlen, hall⟩
  show (streamFrom g.base_time n g.rng).1 = .ok rs
  rw [heq]

theorem generate_records_props (g : FlightDataGenerator) (n : Nat)
    (rs : List FlightRecord) (r : FlightRecord)
    (hok : (g.generate n).1 = .ok rs) (hmem : r ∈ rs) : RecordProps r := by
  obtain ⟨rs', heq, _, hall⟩ := generate_ok g n
  rw [hok] at heq
  injection heq with h
  subst h
  exact hall r hmem

/-! ## Decimal rendering: correctness -/

theorem natToStrAux_fuel : ∀ (f1 f2 n : Nat) (acc : List Char), n < f1 → n < f2 →
    natToStrAux f1 n acc = natToStrAux f2 n acc := by
  intro f1
  induction f1 with
  | zero => intro f2 n acc h1 _; omega
  | succ f1 ih =>
    intro f2 n acc h1 h2
    cases f2 with
    | zero => omega
    | succ f2 =>
      simp only [natToStrAux]
      by_cases hn : n < 10
      · simp [hn]
      · simp only [if_neg hn]
        exact ih f2 (n / 10) _ (by omega) (by omega)

theorem natToStrAux_append : ∀ (f n : Nat) (acc : List Char), n < f →
    natToStrAux f n acc = natToStrAux f n [] ++ acc := by
  intro f
  induction f with
  | zero => intro n acc h; omega
  | succ f ih =>
    intro n acc h
    simp only [natToStrAux]
    by_cases hn : n < 10
    · simp [hn]
    · simp only [if_neg hn]
      rw [ih (n / 10) _ (by omega), ih (n / 10) [digitChar (n % 10)] (by omega)]
      simp

theorem natToStr_small (n : Nat) (h : n < 10) : natToStr n = [digitChar n] := by
  simp [natToStr, natToStrAux, h]

theorem natToStr_step (n : Nat) (h : 10 ≤ n) :
    natToStr n = natToStr (n / 10) ++ [digitChar (n % 10)] := by
  show natToStrAux (n + 1) n [] = natToStrAux (n / 10 + 1) (n / 10) [] ++ [digitChar (n % 10)]
  rw [show natToStrAux (n + 1) n [] = natToStrAux n (n / 10) [digitChar (n % 10)] by
    simp [natToStrAux, Nat.not_lt_of_ge h]]
  rw [natToStrAux_append n (n / 10) _ (by omega)]
  rw [natToStrAux_fuel n (n / 10 + 1) (n / 10) [] (by omega) (by omega)]

theorem digitChar_isDigit (d : Nat) : isDigitCh (digitChar d) = true := by
  unfold digitChar
  split_ifs <;> decide

theorem digitVal_digitChar (d : Nat) (h : d < 10) : digitVal (digitChar d) = d := by
  unfold digitChar
  split_ifs with h0 h1 h2 h3 h4 h5 h6 h7 h8 h9
  all_goals first | (subst_vars; decide) | omega

theorem natToStr_digits : ∀ (n : Nat) (c : Char), c ∈ natToStr n → isDigitCh c = true := by
  have aux : ∀ (f n : Nat) (acc : List Char), (∀ c ∈ acc, isDigitCh c = true) →
      ∀ c ∈ natToStrAux f n acc, isDigitCh c = true := by
    intro f
    induction f with
    | zero => intro n acc hacc c hc; exact hacc c hc
    | succ f ih =>
      intro n acc hacc c hc
      simp only [natToStrAux] at hc
      by_cases hn : n < 10
      · rw [if_pos hn] at hc
        rcases List.mem_cons.mp hc with h | h
        · rw [h]; exact digitChar_isDigit n
        · exact hacc c h
      · rw [if_neg hn] at hc
        refine ih (n / 10) _ ?_ c hc
        intro x hx
        rcases List.mem_cons.mp hx with h | h
        · rw [h]; exact digitChar_isDigit (n % 10)
        · exact hacc x h
  exact fun n c hc => aux (n + 1) n [] (by simp) c hc

theorem natToStr_ne_nil (n : Nat) : natToStr n ≠ [] := by
  by_cases hn : n < 10
  · rw [natToStr_small n hn]; simp
  · rw [natToStr_step n (by omega)]; simp

theorem natToStr_val : ∀ n : Nat,
    List.foldl (fun a c => a * 10 + digitVal c) 0 (natToStr n) = n := by
  intro n
  induction n using Nat.strong_induction_on with
  | _ n ih =>
    by_cases hn : n < 10
    · rw [natToStr_small n hn]
      simp [digitVal_digitChar n hn]
    · rw [natToStr_step n (by omega), List.foldl_append]
      rw [ih (n / 10) (by omega)]
      simp only [List.foldl_cons, List.foldl_nil]
      rw [digitVal_digitChar (n % 10) (by omega)]
      omega

theorem parseDigits_append : ∀ (ds rest : List Char) (acc : Nat),
    (∀ c ∈ ds, isDigitCh c = true) →
    parseDigits (ds ++ rest) acc =
      parseDigits rest (List.foldl (fun a c => a * 10 + digitVal c) acc ds) := by
  intro ds
  induction ds with
  | nil => intro rest acc _; simp
  | cons c ds ih =>
    intro rest acc hds
    have hc : isDigitCh c = true := hds c (List.mem_cons_self _ _)
    simp only [List.cons_append, parseDigits, hc, if_pos, List.append_eq]
    rw [ih rest _ (fun x hx => hds x (List.mem_cons_of_mem _ hx))]
    simp

theorem parseDigits_stop (rest : List Char) (acc : Nat) (h : startsDigit rest = false) :
    parseDigits rest acc = (acc, rest) := by
  cases rest with
  | nil => rfl
  | cons c t =>
    simp only [startsDigit] at h
    simp [parseDigits, h]

theorem parseDigits_natToStr (n : Nat) (rest : List Char) (h : startsDigit rest = false) :
    parseDigits (natToStr n ++ rest) 0 = (n, rest) := by
  rw [parseDigits_append _ _ _ (natToStr_digits n), parseDigits_stop rest _ h, natToStr_val]

/-! ## JSON printer and parser: inverse on printed output -/

theorem parseStringBody_escape : ∀ (s rest : List Char),
    parseStringBody (escapeString s ++ '"' :: rest) = some (s, rest) := by
  intro s
  induction s with
  | nil =>
    intro rest
    show parseStringBody ('"' :: rest) = some ([], rest)
    unfold parseStringBody
    simp
  | cons c cs ih =>
    intro rest
    by_cases h1 : c = '"'
    · subst h1
      show parseStringBody ('\\' :: '"' :: (escapeString cs ++ '"' :: rest)) = _
      unfold parseStringBody
      simp [unescapeChar, ih]
    · by_cases h2 : c = '\\'
      · subst h2
        show parseStringBody ('\\' :: '\\' :: (escapeString cs ++ '"' :: rest)) = _
        unfold parseStringBody
        simp [unescapeChar, ih]
      · by_cases h3 : c = '\n'
        · subst h3
          show parseStringBody ('\\' :: 'n' :: (escapeString cs ++ '"' :: rest)) = _
          unfold parseStringBody
          simp [unescapeChar, ih]
        · by_cases h4 : c = '\t'
          · subst h4
            show parseStringBody ('\\' :: 't' :: (escapeString cs ++ '"' :: rest)) = _
            unfold parseStringBody
            simp [unescapeChar, ih]
          · by_cases h5 : c = '\r'
            · subst h5
              show parseStringBody ('\\' :: 'r' :: (escapeString cs ++ '"' :: rest)) = _
              unfold parseStringBody
              simp [unescapeChar, ih]
            · have hesc : escapeString (c :: cs) = c :: escapeString cs := by
                show escapeChar c ++ escapeString cs = _
                rw [show escapeChar c = [c] by simp [escapeChar, h1, h2, h3, h4, h5]]
                simp
              rw [hesc, List.cons_append]
              unfold parseStringBody
              simp [h1, h2, ih]

theorem digit_mem (c : Char) (h : isDigitCh c = true) : c ∈ digitChars := by
  simpa [isDigitCh] using h

theorem digit_not_special (c : Char) (h : isDigitCh c = true) :
    c ≠ '"' ∧ c ≠ 'n' ∧ c ≠ '-' := by
  have := digit_mem c h
  fin_cases this <;> refine ⟨by decide, by decide, by decide⟩

theorem startsDigit_natToStr (n : Nat) (rest : List Char) :
    startsDigit (natToStr n ++ rest) = true := by
  obtain ⟨c, t, hct⟩ := List.exists_cons_of_ne_nil (natToStr_ne_nil n)
  have hc : isDigitCh c = true := natToStr_digits n c (by rw [hct]; exact List.mem_cons_self _ _)
  rw [hct]
  simpa [startsDigit] using hc

theorem parseJValue_nat (n : Nat) (rest : List Char) (h : startsDigit rest = false) :
    parseJValue (natToStr n ++ rest) = some (.int ((n : Nat) : Int), rest) := by
  obtain ⟨c, t, hct⟩ := List.exists_cons_of_ne_nil (natToStr_ne_nil n)
  have hc : isDigitCh c = true := natToStr_digits n c (by rw [hct]; exact List.mem_cons_self _ _)
  obtain ⟨hq, hn, hm⟩ := digit_not_special c hc
  have hparse : parseDigits (natToStr n ++ rest) 0 = (n, rest) := parseDigits_natToStr n rest h
  rw [hct] at hparse ⊢
  simp only [List.cons_append, parseJValue, if_neg hq, if_neg hn, if_neg hm, hc, if_pos]
  rw [← List.cons_append, hparse]

theorem parseJValue_int (i : Int) (rest : List Char) (h : startsDigit rest = false) :
    parseJValue (intToStr i ++ rest) = some (.int i, rest) := by
  by_cases hi : i < 0
  · have hofs : intToStr i = '-' :: natToStr i.natAbs := by simp [intToStr, hi]
    rw [hofs]
    simp only [List.cons_append, parseJValue, if_true, if_false,
      startsDigit_natToStr, parseDigits_natToStr i.natAbs rest h]
    have hcast : -((i.natAbs : Nat) : Int) = i := by omega
    rw [hcast]
    simp
  · have hofs : intToStr i = natToStr i.toNat := by simp [intToStr, hi]
    rw [hofs, parseJValue_nat i.toNat rest h]
    have hcast : ((i.toNat : Nat) : Int) = i := by omega
    rw [hcast]

theorem parseJValue_print (v : JValue) (rest : List Char) (h : startsDigit rest = false) :
    parseJValue (printJValue v ++ rest) = some (v, rest) := by
  cases v with
  | str s =>
    show parseJValue ('"' :: (escapeString s ++ ['"']) ++ rest) = _
    rw [List.cons_append, List.append_assoc]
    simp only [List.singleton_append, parseJValue, if_pos]
    rw [parseStringBody_escape s rest]
  | int i => exact parseJValue_int i rest h
  | null =>
    show parseJValue ('n' :: ['u', 'l', 'l'] ++ rest) = _
    simp [parseJValue]

theorem printMembers_cons_shape (m : List Char × JValue) :
    ∀ (ms : JObj), ∃ t, printMembers (m :: ms) = '"' :: t := by
  intro ms
  cases ms with
  | nil => exact ⟨escapeString m.1 ++ '"' :: ':' :: printJValue m.2, rfl⟩
  | cons m' ms' =>
    exact ⟨(escapeString m.1 ++ '"' :: ':' :: printJValue m.2) ++
      ',' :: printMembers (m' :: ms'), rfl⟩

theorem printMembers_length : ∀ (ms : JObj), ms.length ≤ (printMembers ms).length := by
  intro ms
  induction ms with
  | nil => simp [printMembers]
  | cons m ms ih =>
    cases ms with
    | nil => simp [printMembers, printMember]
    | cons m' ms' =>
      show (m :: m' :: ms').length ≤ (printMember m ++ ',' :: printMembers (m' :: ms')).length
      simp only [List.length_cons, List.length_append, printMember]
      simp only [List.length_cons] at ih
      omega

theorem startsDigit_cons (c : Char) (t : List Char) :
    startsDigit (c :: t) = isDigitCh c := rfl

theorem parseMembers_print : ∀ (ms : JObj), ms ≠ [] → ∀ (fuel : Nat) (rest : List Char),
    ms.length ≤ fuel →
    parseMembers fuel (printMembers ms ++ '}' :: rest) = some (ms, rest) := by
  intro ms
  induction ms with
  | nil => intro h; exact absurd rfl h
  | cons m ms ih =>
    obtain ⟨k, v⟩ := m
    intro _ fuel rest hfuel
    cases fuel with
    | zero => simp at hfuel
    | succ fuel =>
      cases ms with
      | nil =>
        show parseMembers (fuel + 1)
          (('"' :: (escapeString k ++ '"' :: ':' :: printJValue v)) ++ '}' :: rest) =
          some ([(k, v)], rest)
        simp only [List.cons_append, List.append_assoc]
        unfold parseMembers
        dsimp only
        rw [if_pos rfl, parseStringBody_escape k (':' :: (printJValue v ++ '}' :: rest))]
        dsimp only
        rw [if_pos rfl,
          parseJValue_print v ('}' :: rest) (by rw [startsDigit_cons]; decide)]
        dsimp only
        rw [if_neg (by decide), if_pos rfl]
      | cons m' ms' =>
        show parseMembers (fuel + 1)
          ((('"' :: (escapeString k ++ '"' :: ':' :: printJValue v)) ++
            ',' :: printMembers (m' :: ms')) ++ '}' :: rest) = _
        simp only [List.cons_append, List.append_assoc]
        unfold parseMembers
        dsimp only
        rw [if_pos rfl,
          parseStringBody_escape k
            (':' :: (printJValue v ++ ',' :: (printMembers (m' :: ms') ++ '}' :: rest)))]
        dsimp only
        rw [if_pos rfl,
          parseJValue_print v (',' :: (printMembers (m' :: ms') ++ '}' :: rest))
            (by rw [startsDigit_cons]; decide)]
        dsimp only
        rw [if_pos rfl]
        rw [ih (by simp) fuel rest (by simpa using Nat.le_of_succ_le_succ hfuel)]

theorem json_loads_print : ∀ (ms : JObj), json_loads (printJObj ms) = some ms := by
  intro ms
  cases ms with
  | nil => rfl
  | cons m ms' =>
    obtain ⟨t, ht⟩ := printMembers_cons_shape m ms'
    show json_loads ('{' :: (printMembers (m :: ms') ++ ['}'])) = _
    have hshape : printMembers (m :: ms') ++ ['}'] = '"' :: (t ++ ['}']) := by
      rw [ht]; simp
    unfold json_loads parseJObjAux
    rw [hshape]
    dsimp only
    rw [if_pos rfl, if_neg (by decide)]
    rw [← hshape]
    rw [parseMembers_print (m :: ms') (by simp) _ [] (by
      have h1 := printMembers_length (m :: ms')
      simp only [List.length_cons, List.length_append] at h1 ⊢
      omega)]
    simp [stripChars]

/-! ## Printed lines contain no newline and strip to themselves -/

theorem nl_not_mem_escapeChar (c : Char) : '\n' ∉ escapeChar c := by
  unfold escapeChar
  split_ifs with h1 h2 h3 h4 h5
  · decide
  · decide
  · decide
  · decide
  · decide
  · simp only [List.mem_singleton]
    exact fun hh => h3 hh.symm

theorem nl_not_mem_escapeString : ∀ (s : List Char), '\n' ∉ escapeString s := by
  intro s
  induction s with
  | nil => simp [escapeString]
  | cons c cs ih =>
    show '\n' ∉ escapeChar c ++ escapeString cs
    rw [List.mem_append]
    push_neg
    exact ⟨nl_not_mem_escapeChar c, ih⟩

theorem nl_not_mem_natToStr (n : Nat) : '\n' ∉ natToStr n := by
  intro h
  have := natToStr_digits n '\n' h
  simp [isDigitCh, digitChars] at this

theorem nl_not_mem_intToStr (i : Int) : '\n' ∉ intToStr i := by
  unfold intToStr
  split_ifs with h
  · rw [List.mem_cons]
    push_neg
    exact ⟨by decide, nl_not_mem_natToStr _⟩
  · exact nl_not_mem_natToStr _

theorem nl_not_mem_printJValue (v : JValue) : '\n' ∉ printJValue v := by
  cases v with
  | str s =>
    show '\n' ∉ '"' :: (escapeString s ++ ['"'])
    rw [List.mem_cons, List.mem_append]
    push_neg
    exact ⟨by decide, nl_not_mem_escapeString s, by decide⟩
  | int i => exact nl_not_mem_intToStr i
  | null => decide

theorem nl_not_mem_printMember (m : List Char × JValue) : '\n' ∉ printMember m := by
  show '\n' ∉ '"' :: (escapeString m.1 ++ '"' :: ':' :: printJValue m.2)
  rw [List.mem_cons, List.mem_append, List.mem_cons, List.mem_cons]
  push_neg
  exact ⟨by decide, nl_not_mem_escapeString m.1, by decide, by decide,
    nl_not_mem_printJValue m.2⟩

theorem nl_not_mem_printMembers : ∀ (ms : JObj), '\n' ∉ printMembers ms := by
  intro ms
  induction ms with
  | nil => simp [printMembers]
  | cons m ms ih =>
    cases ms with
    | nil => exact nl_not_mem_printMember m
    | cons m' ms' =>
      show '\n' ∉ printMember m ++ ',' :: printMembers (m' :: ms')
      rw [List.mem_append, List.mem_cons]
      push_neg
      exact ⟨nl_not_mem_printMember m, by decide, ih⟩

theorem nl_not_mem_printJObj (ms : JObj) : '\n' ∉ printJObj ms := by
  show '\n' ∉ '{' :: (printMembers ms ++ ['}'])
  rw [List.mem_cons, List.mem_append]
  push_neg
  exact ⟨by decide, nl_not_mem_printMembers ms, by decide⟩

theorem nl_not_mem_line (r : FlightRecord) : '\n' ∉ record_to_json_line r :=
  nl_not_mem_printJObj (dumpRecord r)

theorem stripChars_of_ends (c₁ c₂ : Char) (mid : List Char)
    (h1 : isSpaceCh c₁ = false) (h2 : isSpaceCh c₂ = false) :
    stripChars (c₁ :: (mid ++ [c₂])) = c₁ :: (mid ++ [c₂]) := by
  unfold stripChars
  rw [List.dropWhile_cons, h1]
  simp only [Bool.false_eq_true, if_false]
  rw [show (c₁ :: (mid ++ [c₂])).reverse = c₂ :: (mid.reverse ++ [c₁]) by simp]
  rw [List.dropWhile_cons, h2]
  simp

theorem stripChars_line (r : FlightRecord) :
    stripChars (record_to_json_line r) = record_to_json_line r := by
  show stripChars ('{' :: (printMembers (dumpRecord r) ++ ['}'])) = _
  exact stripChars_of_ends '{' '}' _ (by decide) (by decide)

theorem line_ne_nil (r : FlightRecord) : record_to_json_line r ≠ [] := by
  show '{' :: (printMembers (dumpRecord r) ++ ['}']) ≠ []
  simp

/-! ## Splitting file content on newlines -/

theorem splitNl_append : ∀ (line rest : List Char), '\n' ∉ line →
    splitNl (line ++ '\n' :: rest) = line :: splitNl rest := by
  intro line
  induction line with
  | nil => intro rest _; simp [splitNl]
  | cons c l ih =>
    intro rest h
    have hc : ¬(c = '\n') := by
      intro hc; exact h (hc ▸ List.mem_cons_self _ _)
    have hm : '\n' ∉ l := fun hm => h (List.mem_cons_of_mem _ hm)
    show (if c = '\n' then [] :: splitNl (l ++ '\n' :: rest)
      else match splitNl (l ++ '\n' :: rest) with
        | l :: ls => (c :: l) :: ls
        | [] => [[c]]) = (c :: l) :: splitNl rest
    rw [if_neg hc, ih rest hm]

/-! ## Writing and reading back NDJSON files -/

theorem json_loads_line (r : FlightRecord) :
    json_loads (record_to_json_line r) = some (dumpRecord r) :=
  json_loads_print (dumpRecord r)

theorem line_isEmpty (r : FlightRecord) : (record_to_json_line r).isEmpty = false := rfl

theorem read_write : ∀ (rs : List FlightRecord),
    read_ndjson_file (stream_to_file rs).1 = .ok (rs.map dumpRecord) := by
  intro rs
  induction rs with
  | nil => rfl
  | cons r rs ih =>
    show read_ndjson_file (record_to_json_line r ++ '\n' :: (stream_to_file rs).1) = _
    unfold read_ndjson_file at ih ⊢
    rw [splitNl_append _ _ (nl_not_mem_line r)]
    rw [List.map_cons, stripChars_line r]
    rw [List.filter_cons_of_pos (by rw [line_isEmpty r]; rfl)]
    unfold parseLines
    rw [json_loads_line r]
    dsimp only
    rw [ih]
    rfl

theorem count_write : ∀ (rs : List FlightRecord),
    count_lines (stream_to_file rs).1 = rs.length := by
  intro rs
  induction rs with
  | nil => rfl
  | cons r rs ih =>
    show count_lines (record_to_json_line r ++ '\n' :: (stream_to_file rs).1) = rs.length + 1
    unfold count_lines at ih ⊢
    rw [splitNl_append _ _ (nl_not_mem_line r)]
    rw [List.map_cons, stripChars_line r]
    rw [List.countP_cons, ih]
    simp [line_isEmpty r]

theorem stream_count : ∀ (rs : List FlightRecord), (stream_to_file rs).2 = rs.length := by
  intro rs
  induction rs with
  | nil => rfl
  | cons r rs ih =>
    show (stream_to_file rs).2 + 1 = rs.length + 1
    rw [ih]

theorem stream_content_join : ∀ (rs : List FlightRecord),
    (stream_to_file rs).1 = (rs.map (fun r => record_to_json_line r ++ ['\n'])).flatten := by
  intro rs
  induction rs with
  | nil => rfl
  | cons r rs ih =>
    show record_to_json_line r ++ '\n' :: (stream_to_file rs).1 = _
    rw [ih]
    simp

theorem count_nl_stream : ∀ (rs : List FlightRecord),
    ((stream_to_file rs).1).count '\n' = rs.length := by
  intro rs
  induction rs with
  | nil => rfl
  | cons r rs ih =>
    show (record_to_json_line r ++ '\n' :: (stream_to_file rs).1).count '\n' = rs.length + 1
    rw [List.count_append]
    rw [List.count_eq_zero.mpr (nl_not_mem_line r)]
    simp [ih]

theorem ndjson_eq_stream : ∀ (rs : List FlightRecord),
    records_to_ndjson rs = (stream_to_file rs).1 := by
  intro rs
  induction rs with
  | nil => rfl
  | cons r rs ih =>
    cases rs with
    | nil =>
      show records_to_ndjson [r] = record_to_json_line r ++ '\n' :: []
      unfold records_to_ndjson
      rw [if_neg (by simp)]
      simp [List.intercalate]
    | cons r' rs' =>
      show records_to_ndjson (r :: r' :: rs') =
        record_to_json_line r ++ '\n' :: (stream_to_file (r' :: rs')).1
      rw [← ih]
      unfold records_to_ndjson
      rw [if_neg (by simp), if_neg (by simp)]
      simp only [List.map_cons, List.intercalate, List.intersperse, List.flatten]
      simp

/-! ## Stream continuation (generate twice = generate once with the sum) -/

theorem streamFrom_append (bt : Int) :
    ∀ (m n : Nat) (s s1 s2 : RState) (xs ys : List FlightRecord),
      streamFrom bt m s = (.ok xs, s1) → streamFrom bt n s1 = (.ok ys, s2) →
      streamFrom bt (m + n) s = (.ok (xs ++ ys), s2) := by
  intro m
  induction m with
  | zero =>
    intro n s s1 s2 xs ys h1 h2
    rw [streamFrom_zero] at h1
    have he : (Except.ok [] : Except ValidationError (List FlightRecord)) = .ok xs :=
      congrArg Prod.fst h1
    have hs : s = s1 := congrArg Prod.snd h1
    injection he with he
    subst hs
    rw [Nat.zero_add, h2, ← he]
    rfl
  | succ m ih =>
    intro n s s1 s2 xs ys h1 h2
    obtain ⟨r, s', hmk, _⟩ := make_record_spec bt s
    obtain ⟨rs', s'', hrec, _, _⟩ := streamFrom_spec bt m s'
    have hstep : streamFrom bt (m + 1) s = (.ok (r :: rs'), s'') := by
      rw [streamFrom_succ, hmk]
      exact streamCont_ok r s' s'' rs' _ hrec
    rw [hstep] at h1
    have he : (Except.ok (r :: rs') : Except ValidationError (List FlightRecord)) = .ok xs :=
      congrArg Prod.fst h1
    have hs : s'' = s1 := congrArg Prod.snd h1
    have he2 : r :: rs' = xs := by
      rw [Except.ok.injEq] at he
      exact he
    subst hs
    subst he2
    rw [Nat.succ_add, streamFrom_succ, hmk]
    have htail : streamFrom bt (m + n) s' = (.ok (rs' ++ ys), s2) := ih n s' s'' s2 rs' ys hrec h2
    rw [streamCont_ok r s' s2 (rs' ++ ys) _ htail]
    rfl

/-! ## Looking up the round-tripped fields -/

theorem lookup_flight_id (r : FlightRecord) :
    List.lookup "flight_id".data (dumpRecord r) = some (.str r.flight_id) := rfl

theorem lookup_airline_code (r : FlightRecord) :
    List.lookup "airline_code".data (dumpRecord r) = some (.str r.airline_code) := rfl

theorem lookup_flight_number (r : FlightRecord) :
    List.lookup "flight_number".data (dumpRecord r) = some (.int r.flight_number) := rfl

theorem forall2_dump (P : FlightRecord → JObj → Prop)
    (hP : ∀ r, P r (dumpRecord r)) :
    ∀ (rs : List FlightRecord), List.Forall₂ P rs (rs.map dumpRecord) := by
  intro rs
  induction rs with
  | nil => exact List.Forall₂.nil
  | cons r rs ih => exact List.Forall₂.cons (hP r) ih

/-! ## Claim theorems -/

/-- C1: for every seed, base_time and `n ≥ 0`, two `FlightDataGenerator`
instances constructed with the same `(seed, base_time)` produce
field-for-field identical record sequences from `generate(n)` and
`stream(n)`; generation is a pure function of the seeded stream owned by
the instance and consumes no other entropy (the embedding of
`_make_record` reads only the explicit stream state and `base_time`). -/
theorem generator_determinism (seed : Nat) (base_time : Int) (n : Nat)
    (g₁ g₂ : FlightDataGenerator)
    (h₁ : g₁ = FlightDataGenerator.new seed base_time)
    (h₂ : g₂ = FlightDataGenerator.new seed base_time) :
    (g₁.generate n).1 = (g₂.generate n).1 ∧ (g₁.stream n).1 = (g₂.stream n).1 := by
  subst h₁
  subst h₂
  exact ⟨rfl, rfl⟩

/-- Witness for C1 at `seed = 42`, `base_time = 0`, `n = 5`. -/
theorem generator_determinism_witness :
    ((FlightDataGenerator.new 42 0).generate 5).1 =
      ((FlightDataGenerator.new 42 0).generate 5).1 ∧
    ((FlightDataGenerator.new 42 0).stream 5).1 =
      ((FlightDataGenerator.new 42 0).stream 5).1 :=
  generator_determinism 42 0 5 _ _ rfl rfl

/-- C2: every record produced by `generate`/`stream` has distinct origin
and destination airports, upper-case airline and airport codes, a flight
number in `[1, 9999]`, and a non-negative delay. -/
theorem generate_invariants (g : FlightDataGenerator) (n : Nat)
    (rs : List FlightRecord) (r : FlightRecord)
    (hok : (g.generate n).1 = .ok rs) (hmem : r ∈ rs) :
    r.origin_airport ≠ r.destination_airport ∧
    upperStr r.airline_code = r.airline_code ∧
    upperStr r.origin_airport = r.origin_airport ∧
    upperStr r.destination_airport = r.destination_airport ∧
    1 ≤ r.flight_number ∧ r.flight_number ≤ 9999 ∧
    0 ≤ r.delay_minutes := by
  have h := generate_records_props g n rs r hok hmem
  unfold RecordProps at h
  exact ⟨h.1, h.2.1, h.2.2.1, h.2.2.2.1, h.2.2.2.2.1, h.2.2.2.2.2.1,
    h.2.2.2.2.2.2.1⟩

/-- Witness for C2 on the record generated at seed 42, base time 0. -/
theorem generate_invariants_witness :
    ((FlightDataGenerator.new 42 0).generate 1).1 = Except.ok sampleRecords ∧
    (sampleRecords.headD default).origin_airport ≠
      (sampleRecords.headD default).destination_airport ∧
    1 ≤ (sampleRecords.headD default).flight_number := by
  have h := generate_invariants (FlightDataGenerator.new 42 0) 1 sampleRecords
    (sampleRecords.headD default) rfl (by decide)
  exact ⟨rfl, h.1, h.2.2.2.2.1⟩

/-- C3: for every generated record, `status = cancelled` implies
`delay_minutes = 0` and `status = delayed` implies `delay_minutes > 0`. -/
theorem status_delay_coupling (g : FlightDataGenerator) (n : Nat)
    (rs : List FlightRecord) (r : FlightRecord)
    (hok : (g.generate n).1 = .ok rs) (hmem : r ∈ rs) :
    (r.status = .cancelled → r.delay_minutes = 0) ∧
    (r.status = .delayed → 0 < r.delay_minutes) := by
  have h := generate_records_props g n rs r hok hmem
  unfold RecordProps at h
  exact ⟨h.2.2.2.2.2.2.2.1, h.2.2.2.2.2.2.2.2.1⟩

/-- Witness for C3 on the record generated at seed 42, base time 0. -/
theorem status_delay_coupling_witness :
    ((FlightDataGenerator.new 42 0).generate 1).1 = Except.ok sampleRecords ∧
    ((sampleRecords.headD default).status = .cancelled →
      (sampleRecords.headD default).delay_minutes = 0) := by
  have h := status_delay_coupling (FlightDataGenerator.new 42 0) 1 sampleRecords
    (sampleRecords.headD default) rfl (by decide)
  exact ⟨rfl, h.1⟩

/-- C4: for every generator instance and every `n ≥ 0`, `generate(n)`
returns a materialized list of exactly `n` records (`n = 0` and `n = 1`
included). -/
theorem generate_count (g : FlightDataGenerator) (n : Nat) :
    ∃ rs, (g.generate n).1 = .ok rs ∧ rs.length = n := by
  obtain ⟨rs, hok, hlen, _⟩ := generate_ok g n
  exact ⟨rs, hok, hlen⟩

/-- C5: writing any `n` records with `stream_to_file` and reading the file
back with `read_ndjson_file` yields exactly `n` dictionaries whose
`flight_id`, `airline_code` and `flight_number` fields equal those of the
original records, in the same order. -/
theorem ndjson_round_trip (rs : List FlightRecord) :
    ∃ ds, read_ndjson_file (stream_to_file rs).1 = .ok ds ∧
      ds.length = rs.length ∧
      List.Forall₂ (fun r d =>
        List.lookup "flight_id".data d = some (.str r.flight_id) ∧
        List.lookup "airline_code".data d = some (.str r.airline_code) ∧
        List.lookup "flight_number".data d = some (.int r.flight_number)) rs ds := by
  refine ⟨rs.map dumpRecord, read_write rs, by simp, ?_⟩
  exact forall2_dump _
    (fun r => ⟨lookup_flight_id r, lookup_airline_code r, lookup_flight_number r⟩) rs

/-- C6: `records_to_ndjson` returns the per-record JSON lines joined by a
newline with exactly one trailing newline for non-empty input (the
newline count equals the record count, so no extra newline appears), and
the empty string for empty input. -/
theorem records_to_ndjson_shape (rs : List FlightRecord) (h : rs ≠ []) :
    records_to_ndjson [] = ([] : List Char) ∧
    records_to_ndjson rs =
      List.intercalate ['\n'] (rs.map record_to_json_line) ++ ['\n'] ∧
    (records_to_ndjson rs).count '\n' = rs.length := by
  refine ⟨rfl, ?_, ?_⟩
  · unfold records_to_ndjson
    rw [if_neg (by simpa using h)]
  · rw [ndjson_eq_stream]
    exact count_nl_stream rs

/-- Witness for C6 on a one-record list. -/
theorem records_to_ndjson_shape_witness :
    records_to_ndjson [] = ([] : List Char) ∧
    records_to_ndjson [sampleRecords.headD default] =
      List.intercalate ['\n'] ([sampleRecords.headD default].map record_to_json_line) ++
        ['\n'] ∧
    (records_to_ndjson [sampleRecords.headD default]).count '\n' =
      [sampleRecords.headD default].length :=
  records_to_ndjson_shape [sampleRecords.headD default] (List.cons_ne_nil _ _)

/-- C7: `stream_to_file` writes one line per record, returns exactly the
record count, `count_lines` on the resulting content returns the same
number, and a zero-length input produces empty content and count 0. -/
theorem stream_to_file_spec (rs : List FlightRecord) :
    (stream_to_file rs).2 = rs.length ∧
    (stream_to_file rs).1 =
      (rs.map (fun r => record_to_json_line r ++ ['\n'])).flatten ∧
    count_lines (stream_to_file rs).1 = rs.length ∧
    stream_to_file [] = (([] : List Char), 0) :=
  ⟨stream_count rs, stream_content_join rs, count_write rs, rfl⟩

/-- C8: on a single instance, a second `generate` continues the internal
random stream instead of replaying: `generate(m)` followed by
`generate(n)` on the instance returned by the first call yields exactly
the concatenation that a fresh instance with the same `(seed, base_time)`
produces from `generate(m + n)`. -/
theorem generate_continues_stream (seed : Nat) (base_time : Int) (m n : Nat) :
    ∃ xs ys,
      ((FlightDataGenerator.new seed base_time).generate m).1 = .ok xs ∧
      ((((FlightDataGenerator.new seed base_time).generate m).2).generate n).1 = .ok ys ∧
      ((FlightDataGenerator.new seed base_time).generate (m + n)).1 = .ok (xs ++ ys) := by
  obtain ⟨xs, s1, h1, _, _⟩ :=
    streamFrom_spec base_time m (FlightDataGenerator.new seed base_time).rng
  obtain ⟨ys, s2, h2, _, _⟩ := streamFrom_spec base_time n s1
  have h3 := streamFrom_append base_time m n _ s1 s2 xs ys h1 h2
  refine ⟨xs, ys, ?_, ?_, ?_⟩
  · show (streamFrom base_time m (FlightDataGenerator.new seed base_time).rng).1 = _
    rw [h1]
  · show (streamFrom base_time n
      (streamFrom base_time m (FlightDataGenerator.new seed base_time).rng).2).1 = _
    rw [h1]
    dsimp only
    rw [h2]
  · show (streamFrom base_time (m + n)
      (FlightDataGenerator.new seed base_time).rng).1 = _
    rw [h3]

/-- C9: `FlightRecord` construction succeeds exactly when every field
satisfies its declared range constraint (`flight_number ∈ [1, 9999]`,
`airline_code` length in `[2, 3]`, airport code lengths in `[3, 4]`,
`delay_minutes ≥ 0`); outside those ranges it fails with a validation
error, and any successfully constructed record itself satisfies all
constraints with the normalizing upper-casing applied — no
partially-valid record exists. -/
theorem flight_record_validation (flight_id : List Char) (flight_type : FlightType)
    (airline : List Char) (airline_code : List Char) (flight_number : Int)
    (origin_airport destination_airport : List Char) (scheduled_time : Int)
    (estimated_time actual_time : Option Int) (status : FlightStatus)
    (gate terminal aircraft_type : Option (List Char)) (delay_minutes : Int) :
    ((∃ r, mkFlightRecord flight_id flight_type airline airline_code flight_number
        origin_airport destination_airport scheduled_time estimated_time actual_time
        status gate terminal aircraft_type delay_minutes = .ok r) ↔
      (2 ≤ airline_code.length ∧ airline_code.length ≤ 3 ∧
       1 ≤ flight_number ∧ flight_number ≤ 9999 ∧
       3 ≤ origin_airport.length ∧ origin_airport.length ≤ 4 ∧
       3 ≤ destination_airport.length ∧ destination_airport.length ≤ 4 ∧
       0 ≤ delay_minutes)) ∧
    (∀ r, mkFlightRecord flight_id flight_type airline airline_code flight_number
        origin_airport destination_airport scheduled_time estimated_time actual_time
        status gate terminal aircraft_type delay_minutes = .ok r →
      2 ≤ r.airline_code.length ∧ r.airline_code.length ≤ 3 ∧
      1 ≤ r.flight_number ∧ r.flight_number ≤ 9999 ∧
      3 ≤ r.origin_airport.length ∧ r.origin_airport.length ≤ 4 ∧
      3 ≤ r.destination_airport.length ∧ r.destination_airport.length ≤ 4 ∧
      0 ≤ r.delay_minutes ∧
      r.airline_code = upperStr airline_code ∧
      r.origin_airport = upperStr origin_airport ∧
      r.destination_airport = upperStr destination_airport) := by
  unfold mkFlightRecord
  split_ifs with h1 h2 h3 h4 h5
  · refine ⟨⟨fun _ => ⟨h1.1, h1.2, h2.1, h2.2, h3.1, h3.2, h4.1, h4.2, h5⟩,
      fun _ => ⟨_, rfl⟩⟩, ?_⟩
    intro r hr
    injection hr with hr
    subst hr
    dsimp only
    refine ⟨?_, ?_, h2.1, h2.2, ?_, ?_, ?_, ?_, h5, rfl, rfl, rfl⟩
    all_goals rw [upperStr_length]; omega
  · refine ⟨⟨fun hex => ?_, fun hc => absurd hc.2.2.2.2.2.2.2.2 h5⟩, ?_⟩
    · obtain ⟨r, hr⟩ := hex
      cases hr
    · intro r hr
      cases hr
  · refine ⟨⟨fun hex => ?_, fun hc => absurd ⟨hc.2.2.2.2.2.2.1, hc.2.2.2.2.2.2.2.1⟩ h4⟩, ?_⟩
    · obtain ⟨r, hr⟩ := hex
      cases hr
    · intro r hr
      cases hr
  · refine ⟨⟨fun hex => ?_, fun hc => absurd ⟨hc.2.2.2.2.1, hc.2.2.2.2.2.1⟩ h3⟩, ?_⟩
    · obtain ⟨r, hr⟩ := hex
      cases hr
    · intro r hr
      cases hr
  · refine ⟨⟨fun hex => ?_, fun hc => absurd ⟨hc.2.2.1, hc.2.2.2.1⟩ h2⟩, ?_⟩
    · obtain ⟨r, hr⟩ := hex
      cases hr
    · intro r hr
      cases hr
  · refine ⟨⟨fun hex => ?_, fun hc => absurd ⟨hc.1, hc.2.1⟩ h1⟩, ?_⟩
    · obtain ⟨r, hr⟩ := hex
      cases hr
    · intro r hr
      cases hr

/-- Witness for C9: a concrete valid construction, with the constraints
and normalization read off the constructed record. -/
theorem flight_record_validation_witness :
    (sampleValidated.toOption.getD default).airline_code = upperStr "UA".data ∧
    1 ≤ (sampleValidated.toOption.getD default).flight_number ∧
    2 ≤ (sampleValidated.toOption.getD default).airline_code.length := by
  have h := (flight_record_validation "UA-100".data FlightType.arrival
    "United Airlines".data "UA".data 100 "JFK".data "LAX".data 0 none none
    FlightStatus.scheduled none none none 0).2
    (sampleValidated.toOption.getD default) rfl
  exact ⟨h.2.2.2.2.2.2.2.2.2.1, h.2.2.1, h.1⟩

/-- C10: for every generated record, `estimated_time` is present iff
`delay_minutes > 0`, `actual_time` is present iff the status is one of
arrived/landed/departed, and a departed record has zero delay, no
estimate, and `actual_time = scheduled_time`. -/
theorem optional_time_fields (g : FlightDataGenerator) (n : Nat)
    (rs : List FlightRecord) (r : FlightRecord)
    (hok : (g.generate n).1 = .ok rs) (hmem : r ∈ rs) :
    (r.estimated_time.isSome ↔ 0 < r.delay_minutes) ∧
    (r.actual_time.isSome ↔
      (r.status = .arrived ∨ r.status = .landed ∨ r.status = .departed)) ∧
    (r.status = .departed →
      r.delay_minutes = 0 ∧ r.estimated_time = none ∧
      r.actual_time = some r.scheduled_time) := by
  have h := generate_records_props g n rs r hok hmem
  unfold RecordProps at h
  exact ⟨h.2.2.2.2.2.2.2.2.2.1, h.2.2.2.2.2.2.2.2.2.2.1, h.2.2.2.2.2.2.2.2.2.2.2⟩

/-- Witness for C10 on the record generated at seed 42, base time 0. -/
theorem optional_time_fields_witness :
    ((FlightDataGenerator.new 42 0).generate 1).1 = Except.ok sampleRecords ∧
    ((sampleRecords.headD default).estimated_time.isSome ↔
      0 < (sampleRecords.headD default).delay_minutes) := by
  have h := optional_time_fields (FlightDataGenerator.new 42 0) 1 sampleRecords
    (sampleRecords.headD default) rfl (by decide)
  exact ⟨rfl, h.1⟩
